import Mathlib

/-
Verification of the realtime speech-transcription relay (app/realtime.py,
app/main.py, app/buffers.py) against its specification.

The Python code is shallowly embedded: JSON values become the inductive
`JValue` (Python `None` is `JValue.null`, so a stored JSON null and an
absent key behave identically under `dict.get` with a `None` default,
exactly as in Python); Python floats are modelled as exact rationals;
code that can raise an uncaught exception returns `Except Unit`.
-/

/-- A decoded JSON value, as produced by `json.loads`.  `null` doubles as
Python `None`. -/
inductive JValue where
  | null
  | bool (b : Bool)
  | num (n : Int)
  | str (s : String)
  | arr (elems : List JValue)
  | obj (fields : List (String × JValue))

/-- Python truthiness of a decoded JSON value: `None`, `False`, `0`, `""`,
`[]` and `{}` are falsy, everything else truthy. -/
def truthy : JValue → Bool
  | JValue.null => false
  | JValue.bool b => b
  | JValue.num n => n != 0
  | JValue.str s => !s.isEmpty
  | JValue.arr es => !es.isEmpty
  | JValue.obj fs => !fs.isEmpty

/-- `d.get(k)` on a Python dict modelled as an association list: `none` when
the key is absent.  Callers supply the Python default via `Option.getD`. -/
def pyGet (fs : List (String × JValue)) (k : String) : Option JValue :=
  Option.map Prod.snd (List.find? (fun p => p.1 == k) fs)

/-- `safe_get(d, path, default)` from app/realtime.py: walks a dotted path
(here already split into components), returning `default` as soon as the
current value is not a dict or lacks the key. -/
def safe_get : JValue → List String → JValue → JValue
  | cur, [], _ => cur
  | cur, k :: rest, dflt =>
    match cur with
    | JValue.obj fs =>
      match pyGet fs k with
      | some v => safe_get v rest dflt
      | none => dflt
    | _ => dflt

/-- Whether the character list `pat` occurs starting at the head of `s`. -/
def listStartsWith : List Char → List Char → Bool
  | _, [] => true
  | [], _ :: _ => false
  | a :: s, b :: t => a == b && listStartsWith s t

/-- Whether `pat` occurs contiguously anywhere in `s`. -/
def listContainsSub (pat : List Char) : List Char → Bool
  | [] => listStartsWith [] pat
  | c :: rest => listStartsWith (c :: rest) pat || listContainsSub pat rest

/-- Python `pat in s` for strings: substring containment. -/
def strContains (s pat : String) : Bool :=
  listContainsSub pat.data s.data

/-- The loop of `extract_text`: the first key of `ks` whose value in `d` is a
non-empty string (`isinstance(v, str) and v`). -/
def firstKey (d : List (String × JValue)) : List String → Option String
  | [] => none
  | k :: ks =>
    match (pyGet d k).getD JValue.null with
    | JValue.str s => if s.isEmpty then firstKey d ks else some s
    | _ => firstKey d ks

/-- `extract_text` from app/realtime.py `events`.  Scans the four top-level
keys for a non-empty string; otherwise evaluates the Python expression
`(d.get("audio") or {}).get("transcript") or d.get("transcription") or
safe_get(d, "response.output_text")` (an `or`-chain on truthiness) and
returns that value if it is a non-empty string.  When `d["audio"]` is a
truthy non-dict, Python raises `AttributeError` on `.get`, modelled as
`Except.error`. -/
def extract_text (d : List (String × JValue)) : Except Unit (Option String) :=
  match firstKey d [("text"), ("text_delta"), ("transcript"), ("transcript_delta")] with
  | some s => Except.ok (some s)
  | none =>
    let a := (pyGet d ("audio")).getD JValue.null
    let audio := if truthy a then a else JValue.obj []
    match audio with
    | JValue.obj afs =>
      let v1 := (pyGet afs ("transcript")).getD JValue.null
      let v2 := (pyGet d ("transcription")).getD JValue.null
      let v3 := safe_get (JValue.obj d) [("response"), ("output_text")] JValue.null
      let v := if truthy v1 then v1 else if truthy v2 then v2 else v3
      match v with
      | JValue.str s => Except.ok (if s.isEmpty then none else some s)
      | _ => Except.ok none
    | _ => Except.error ()

/-- The display text `events` attaches to an event: `extract_text(data) or ""`.
`none` records that the extraction raised. -/
def displayText (d : List (String × JValue)) : Option String :=
  match extract_text d with
  | Except.ok t => some (t.getD (""))
  | Except.error _ => none

/-- Python `needle in v` for the event-type value: substring test on a
string, membership on a list or dict, `TypeError` on anything else. -/
def pyIn (needle : String) : JValue → Except Unit Bool
  | JValue.str s => Except.ok (strContains s needle)
  | JValue.arr es =>
    Except.ok (es.any (fun x =>
      match x with
      | JValue.str s => s == needle
      | _ => false))
  | JValue.obj fs => Except.ok (fs.any (fun p => p.1 == needle))
  | _ => Except.error ()

/-- One event as yielded by `events` in app/realtime.py: the raw dict
`{event_type, partial, final, text, start_s, end_s, raw}`.  `isPart` and
`isFinal` stand for the `partial` and `final` keys. -/
structure TranscriptEvent where
  event_type : JValue
  isPart : Bool
  isFinal : Bool
  text : String
  start_s : JValue
  end_s : JValue
  raw : JValue

/-- What one iteration of the `events` loop does with a received frame. -/
inductive StepResult where
  | skipped
  | raised
  | yielded (e : TranscriptEvent)

/-- One iteration of the `events` loop in app/realtime.py, after
`self._ws.recv()` returned a frame.  The argument is the result of
`json.loads` on the frame: `none` when it raised (the frame is logged and
skipped).  A decoded non-dict value makes `data.get` raise
`AttributeError`; a dict is classified: `evt_type = data.get("type", "")`,
`is_partial = any(s in evt_type for s in (".delta", ".partial"))`,
`is_final = any(s in evt_type for s in (".done", ".completed", ".final"))`,
`text = extract_text(data) or ""`, timestamps via `safe_get`.  `raised`
terminates the generator (and with it the event sequence). -/
def processFrame : Option JValue → StepResult
  | none => StepResult.skipped
  | some (JValue.obj fs) =>
    let evt_type := (pyGet fs ("type")).getD (JValue.str (""))
    match pyIn (".delta") evt_type, pyIn (".partial") evt_type,
        pyIn (".done") evt_type, pyIn (".completed") evt_type,
        pyIn (".final") evt_type, extract_text fs with
    | Except.ok p1, Except.ok p2, Except.ok f1, Except.ok f2, Except.ok f3,
      Except.ok txt =>
      let ip := p1 || p2
      let fin := f1 || f2 || f3
      StepResult.yielded
        { event_type := evt_type
          isPart := ip && !fin
          isFinal := fin
          text := txt.getD ("")
          start_s := safe_get (JValue.obj fs) [("audio"), ("start_time_s")] JValue.null
          end_s := safe_get (JValue.obj fs) [("audio"), ("end_time_s")] JValue.null
          raw := JValue.obj fs }
    | _, _, _, _, _, _ => StepResult.raised
  | some _ => StepResult.raised

/-- A message sent to the upstream transcription service.  The base64
encoding of `input_audio_buffer.append` is kept as the raw byte list. -/
inductive UpMsg where
  | append (raw : List Nat)
  | commit
  | clear
  | session_update

/-- The value of `send_audio_chunk`: the returned pair, the clock after the
call, and the messages sent. -/
structure SendResult where
  start_s : ℚ
  end_s : ℚ
  clock : ℚ
  sent : List UpMsg

/-- `send_audio_chunk` from app/realtime.py: `n_samples = len(raw)/2.0`,
`dur_s = n_samples / sample_rate`, returns `(start_s, end_s)` and advances
`_audio_time_s` (here `clock`) to `end_s`, sending one append message. -/
def send_audio_chunk (sample_rate clock : ℚ) (raw_pcm16 : List Nat) : SendResult :=
  let n_samples : ℚ := (raw_pcm16.length : ℚ) / 2
  let dur_s : ℚ := n_samples / sample_rate
  { start_s := clock
    end_s := clock + dur_s
    clock := clock + dur_s
    sent := [UpMsg.append raw_pcm16] }

/-- `clear` from app/realtime.py: sets `_audio_time_s` to `0.0` and sends
one `input_audio_buffer.clear` message. -/
def sessionClear (_clock : ℚ) : ℚ × List UpMsg :=
  (0, [UpMsg.clear])

/-- `close` from app/realtime.py on the state `_ws` (`some` = a connection
is held).  The Bool says whether the underlying `self._ws.close()` raises;
either way the exception is swallowed and `_ws` is set to `None`.  Returns
the new state and how many underlying close calls were made. -/
def sessionClose : Option Unit → Bool → Option Unit × Nat
  | some _, _ => (none, 1)
  | none, _ => (none, 0)

/-- The intervals returned by a sequence of `send_audio_chunk` calls on one
session, threading the clock. -/
def runChunks (sample_rate : ℚ) : ℚ → List (List Nat) → List (ℚ × ℚ)
  | _, [] => []
  | clock, raw :: rest =>
    let r := send_audio_chunk sample_rate clock raw
    (r.start_s, r.end_s) :: runChunks sample_rate r.clock rest

/-- The clock after a sequence of `send_audio_chunk` calls. -/
def clockAfter (sample_rate : ℚ) : ℚ → List (List Nat) → ℚ
  | clock, [] => clock
  | clock, raw :: rest =>
    clockAfter sample_rate (send_audio_chunk sample_rate clock raw).clock rest

/-- The duration `(len(raw)/2) / sample_rate` of one chunk. -/
def chunkDur (sample_rate : ℚ) (raw : List Nat) : ℚ :=
  ((raw.length : ℚ) / 2) / sample_rate

/-- Total duration of a list of chunks. -/
def durSum (sample_rate : ℚ) (l : List (List Nat)) : ℚ :=
  (l.map (chunkDur sample_rate)).sum

/-- A frame received from the client over the WebSocket: binary PCM16
bytes, or a text frame given as the result of `json.loads` (`none` when it
raised). -/
inductive Frame where
  | binary (raw : List Nat)
  | text (parsed : Option JValue)

/-- One entry of the two chunk RingLogs:
`{"t": t0, "bytes": len(raw), "start_s": start_s, "end_s": end_s}`. -/
structure ChunkEntry where
  t : ℚ
  nbytes : Nat
  start_s : ℚ
  end_s : ℚ

/-- The effect of one iteration of `pump_client_to_openai`: the audio clock
after the frame, the messages sent upstream, and the entries appended to
`front_chunks` and `openai_chunks`. -/
structure ClientStepOut where
  clock : ℚ
  upMsgs : List UpMsg
  frontLog : List ChunkEntry
  openaiLog : List ChunkEntry

/-- One iteration of `pump_client_to_openai` in app/main.py.  A binary
frame goes through `send_audio_chunk` and is logged in both chunk logs; a
text frame is parsed as a control command: `"flush"` does nothing (the
commit is commented out), `"reset"` calls `session.clear()`, everything
else — including malformed JSON and any exception, which `except
Exception: pass` swallows — is ignored. -/
def pump_client_step (sample_rate clock tnow : ℚ) : Frame → ClientStepOut
  | Frame.binary raw =>
    let r := send_audio_chunk sample_rate clock raw
    { clock := r.clock
      upMsgs := r.sent
      frontLog := [⟨tnow, raw.length, r.start_s, r.end_s⟩]
      openaiLog := [⟨tnow, raw.length, r.start_s, r.end_s⟩] }
  | Frame.text (some (JValue.obj fs)) =>
    match (pyGet fs ("type")).getD JValue.null with
    | JValue.str s =>
      if s == "flush" then ⟨clock, [], [], []⟩
      else if s == "reset" then
        let r := sessionClear clock
        ⟨r.1, r.2, [], []⟩
      else ⟨clock, [], [], []⟩
    | _ => ⟨clock, [], [], []⟩
  | Frame.text _ => ⟨clock, [], [], []⟩

/-- The outward message `{"type", "text", "ts": {"start_s", "end_s"},
"event"}` built by `pump_openai_to_client`. -/
structure Payload where
  ptype : String
  text : String
  ts_start : JValue
  ts_end : JValue
  event : JValue

/-- The payload `pump_openai_to_client` builds for an event it forwards:
`type` is `"partial" if evt["partial"] and not evt["final"] else "final"
if evt["final"] else ("partial")`. -/
def outwardPayload (e : TranscriptEvent) : Payload :=
  { ptype :=
      if e.isPart && !e.isFinal then ("partial")
      else if e.isFinal then ("final")
      else ("partial")
    text := e.text
    ts_start := e.start_s
    ts_end := e.end_s
    event := e.event_type }

/-- The effect of one iteration of `pump_openai_to_client`: the messages
sent to the client and the entries appended to `openai_text` and
`front_text` (each tagged with its `now_s()` call). -/
structure OpenaiStepOut where
  sent : List Payload
  openaiTextLog : List (ℚ × Payload)
  frontTextLog : List (ℚ × Payload)

/-- One iteration of `pump_openai_to_client` in app/main.py: an event with
falsy (empty) text is skipped entirely; otherwise the payload is logged in
`openai_text`, sent to the client, and logged in `front_text`. -/
def pump_openai_step (t1 t2 : ℚ) (e : TranscriptEvent) : OpenaiStepOut :=
  if e.text = "" then ⟨[], [], []⟩
  else
    let p := outwardPayload e
    ⟨[p], [(t1, p)], [(t2, p)]⟩

/-- `RingLog` from app/buffers.py: a `deque(maxlen=capacity)` of entries. -/
structure RingLog (α : Type) where
  capacity : Nat
  items : List α

/-- `RingLog(capacity)`: an empty log. -/
def RingLog.new {α : Type} (capacity : Nat) : RingLog α :=
  ⟨capacity, []⟩

/-- `add`: `deque.append` with `maxlen` — the oldest entries beyond the
capacity are evicted from the left. -/
def RingLog.add {α : Type} (l : RingLog α) (x : α) : RingLog α :=
  let it := l.items ++ [x]
  ⟨l.capacity, it.drop (it.length - l.capacity)⟩

/-- `latest(limit)`: `[]` for `limit <= 0`, else `list(dq)[-limit:]`. -/
def RingLog.latest {α : Type} (l : RingLog α) (limit : Int) : List α :=
  if limit ≤ 0 then [] else l.items.drop (l.items.length - limit.toNat)

/-- `len(ringlog)`. -/
def RingLog.size {α : Type} (l : RingLog α) : Nat :=
  l.items.length

/-- Appending a whole list of items, in order. -/
def RingLog.addAll {α : Type} (l : RingLog α) (xs : List α) : RingLog α :=
  xs.foldl RingLog.add l

/-- The last `n` elements of a list, in order. -/
def lastN {α : Type} (n : Nat) (l : List α) : List α :=
  l.drop (l.length - n)

/-- The candidate values named by the text-extraction claim, in its order:
the four top-level fields, then nested `audio.transcript`, then top-level
`transcription`, then nested `response.output_text`. -/
def textCandidates (d : List (String × JValue)) : List JValue :=
  [(pyGet d ("text")).getD JValue.null,
   (pyGet d ("text_delta")).getD JValue.null,
   (pyGet d ("transcript")).getD JValue.null,
   (pyGet d ("transcript_delta")).getD JValue.null,
   safe_get (JValue.obj d) [("audio"), ("transcript")] JValue.null,
   (pyGet d ("transcription")).getD JValue.null,
   safe_get (JValue.obj d) [("response"), ("output_text")] JValue.null]

/-- The first non-empty string in a list of values. -/
def firstNonemptyStr : List JValue → Option String
  | [] => none
  | JValue.str s :: vs => if s.isEmpty then firstNonemptyStr vs else some s
  | _ :: vs => firstNonemptyStr vs

/-- The text-extraction claim read as stated: the extracted display text is
the first non-empty string among the seven candidate fields in priority
order, and the empty string when there is none. -/
def extractTextSpec (d : List (String × JValue)) : String :=
  (firstNonemptyStr (textCandidates d)).getD ("")

/-- The value of `v if v else d` folded over a list: the first truthy
value, `null` when all are falsy. -/
def firstTruthy : List JValue → JValue
  | [] => JValue.null
  | v :: vs => if truthy v then v else firstTruthy vs

/-- `v` when it is a non-empty string, nothing otherwise. -/
def asNonemptyStr : JValue → Option String
  | JValue.str s => if s.isEmpty then none else some s
  | _ => none

/-- The `audio` sub-object used by the fallback: a falsy or missing
`audio` field is replaced by the empty dict, a truthy non-dict raises. -/
def audioObj (d : List (String × JValue)) : Except Unit (List (String × JValue)) :=
  let a := (pyGet d ("audio")).getD JValue.null
  if truthy a then
    match a with
    | JValue.obj afs => Except.ok afs
    | _ => Except.error ()
  else Except.ok []

/-- The amended text-extraction claim: first non-empty string among the
four top-level fields; otherwise take the first truthy value among nested
`audio.transcript`, top-level `transcription` and nested
`response.output_text` (a truthy non-dict `audio` raises), and keep it
only when it is a non-empty string. -/
def extractTextAmended (d : List (String × JValue)) : Except Unit (Option String) :=
  match firstKey d [("text"), ("text_delta"), ("transcript"), ("transcript_delta")] with
  | some s => Except.ok (some s)
  | none =>
    match audioObj d with
    | Except.error _ => Except.error ()
    | Except.ok afs =>
      Except.ok (asNonemptyStr (firstTruthy
        [(pyGet afs ("transcript")).getD JValue.null,
         (pyGet d ("transcription")).getD JValue.null,
         safe_get (JValue.obj d) [("response"), ("output_text")] JValue.null]))

/-! Helper lemmas. -/

theorem runChunks_length (sample_rate c : ℚ) (l : List (List Nat)) :
    (runChunks sample_rate c l).length = l.length := by
  induction l generalizing c with
  | nil => rfl
  | cons raw rest ih => simp [runChunks, ih]

theorem sendChunk_clock (sample_rate c : ℚ) (raw : List Nat) :
    (send_audio_chunk sample_rate c raw).clock = c + chunkDur sample_rate raw := rfl

theorem runChunks_get (sample_rate : ℚ) (l : List (List Nat)) :
    ∀ (c : ℚ) (i : Nat) (hi : i < l.length),
      (runChunks sample_rate c l).get ⟨i, by rw [runChunks_length]; exact hi⟩
        = (c + durSum sample_rate (l.take i), c + durSum sample_rate (l.take (i + 1))) := by
  induction l with
  | nil => intro c i hi; exact absurd hi (Nat.not_lt_zero i)
  | cons raw rest ih =>
    intro c i hi
    cases i with
    | zero =>
      simp [runChunks, send_audio_chunk, durSum, chunkDur, List.get]
    | succ j =>
      have hj : j < rest.length := Nat.lt_of_succ_lt_succ hi
      have h2 := ih ((send_audio_chunk sample_rate c raw).clock) j hj
      simp only [runChunks, List.get_cons_succ] at h2 ⊢
      rw [h2, sendChunk_clock]
      simp only [List.take_succ_cons, durSum, List.map_cons, List.sum_cons,
        Prod.mk.injEq]
      constructor <;> ring

theorem clockAfter_eq (sample_rate : ℚ) (l : List (List Nat)) :
    ∀ c : ℚ, clockAfter sample_rate c l = c + durSum sample_rate l := by
  induction l with
  | nil => intro c; simp [clockAfter, durSum]
  | cons raw rest ih =>
    intro c
    rw [clockAfter, ih, sendChunk_clock]
    simp only [durSum, List.map_cons, List.sum_cons]
    ring

theorem durSum_take_succ (sample_rate : ℚ) (l : List (List Nat)) (i : Nat)
    (hi : i < l.length) :
    durSum sample_rate (l.take (i + 1))
      = durSum sample_rate (l.take i) + chunkDur sample_rate (l.get ⟨i, hi⟩) := by
  have hm : i < (l.map (chunkDur sample_rate)).length := by simpa using hi
  have h := List.sum_take_succ (l.map (chunkDur sample_rate)) i hm
  simp only [durSum, List.map_take]
  rw [h, List.getElem_map, List.get_eq_getElem]

theorem lastN_length {α : Type} (n : Nat) (l : List α) :
    (lastN n l).length = l.length - (l.length - n) := by
  simp [lastN]

theorem lastN_of_drop {α : Type} (n j : Nat) (l : List α) (h : j ≤ l.length - n) :
    lastN n (l.drop j) = lastN n l := by
  simp only [lastN, List.length_drop, List.drop_drop]
  congr 1
  omega

theorem lastN_append_lastN {α : Type} (n : Nat) (a b : List α) :
    lastN n (lastN n a ++ b) = lastN n (a ++ b) := by
  have h1 : lastN n a ++ b = (a ++ b).drop (a.length - n) := by
    rw [lastN, List.drop_append_of_le_length (Nat.sub_le _ _)]
  rw [h1, lastN_of_drop]
  simp only [List.length_append]
  omega

theorem add_items {α : Type} (cap : Nat) (a : List α) (x : α) :
    RingLog.add ⟨cap, a⟩ x = ⟨cap, lastN cap (a ++ [x])⟩ := rfl

theorem addAll_items {α : Type} (xs : List α) :
    ∀ (cap : Nat) (a : List α), a.length ≤ cap →
      RingLog.addAll ⟨cap, a⟩ xs = ⟨cap, lastN cap (a ++ xs)⟩ := by
  induction xs with
  | nil =>
    intro cap a h
    simp only [RingLog.addAll, List.foldl_nil, lastN, List.append_nil,
      Nat.sub_eq_zero_of_le h, List.drop_zero]
  | cons x xs ih =>
    intro cap a h
    have hstep : RingLog.addAll ⟨cap, a⟩ (x :: xs)
        = RingLog.addAll ⟨cap, lastN cap (a ++ [x])⟩ xs := by
      simp only [RingLog.addAll, List.foldl_cons, add_items]
    have hinv : (lastN cap (a ++ [x])).length ≤ cap := by
      rw [lastN_length]; omega
    rw [hstep, ih cap (lastN cap (a ++ [x])) hinv, lastN_append_lastN]
    simp

/-! The claims. -/

/-- Claim C1: for a sequence of audio chunks sent through `send_audio_chunk`
at a fixed sample rate with the clock starting at 0, the i-th call returns
`(startS, endS)` with `startS` the sum of `(bj/2)/r` over the prior chunks
and `endS - startS = (bi/2)/r`, and advances the clock to `endS`; a chunk
of 0 bytes returns a zero-duration interval at the current cursor and
leaves the clock unchanged. -/
theorem c1_audio_clock (sample_rate : ℚ) (_hr : 0 < sample_rate)
    (chunks : List (List Nat)) (i : Nat) (hi : i < chunks.length) (c : ℚ) :
    (runChunks sample_rate 0 chunks).get ⟨i, by rw [runChunks_length]; exact hi⟩
      = (durSum sample_rate (chunks.take i),
         durSum sample_rate (chunks.take i) + chunkDur sample_rate (chunks.get ⟨i, hi⟩))
  ∧ ((runChunks sample_rate 0 chunks).get ⟨i, by rw [runChunks_length]; exact hi⟩).2
      - ((runChunks sample_rate 0 chunks).get ⟨i, by rw [runChunks_length]; exact hi⟩).1
      = chunkDur sample_rate (chunks.get ⟨i, hi⟩)
  ∧ clockAfter sample_rate 0 (chunks.take (i + 1))
      = ((runChunks sample_rate 0 chunks).get ⟨i, by rw [runChunks_length]; exact hi⟩).2
  ∧ send_audio_chunk sample_rate c []
      = { start_s := c, end_s := c, clock := c, sent := [UpMsg.append []] } := by
  have hg := runChunks_get sample_rate chunks 0 i hi
  simp only [zero_add] at hg
  refine ⟨?_, ?_, ?_, ?_⟩
  · rw [hg, durSum_take_succ sample_rate chunks i hi]
  · rw [hg, durSum_take_succ sample_rate chunks i hi]
    ring
  · rw [clockAfter_eq, hg, zero_add]
  · simp [send_audio_chunk]

/-- Witness for C1: the end-to-end example of the spec — chunks of 3200,
1600, 3200 bytes at 16000 Hz; the second chunk gets the interval
`(0.1, 0.15)`. -/
theorem c1_witness :
    (runChunks 16000 0
        [List.replicate 3200 0, List.replicate 1600 0, List.replicate 3200 0]).get
      ⟨1, by rw [runChunks_length]; norm_num⟩ = (1 / 10, 3 / 20) :=
  ((c1_audio_clock 16000 (by norm_num)
      [List.replicate 3200 0, List.replicate 1600 0, List.replicate 3200 0]
      1 (by norm_num) 0).1).trans (by
        norm_num [durSum, chunkDur, List.take_succ_cons, List.take_zero])

/-- Claim C7: a RingLog of capacity `n`, after appending more than `n`
items, has `size = n` and `latest n` returns exactly the last `n` items in
insertion order; `latest` of a non-positive limit is empty; and `latest m`
for `m < size` is the most recent `m` items in insertion order. -/
theorem c7_ring_eviction {α : Type} (n : Nat) (xs : List α) (hk : n < xs.length) :
    RingLog.size (RingLog.addAll (RingLog.new n) xs) = n
  ∧ RingLog.latest (RingLog.addAll (RingLog.new n) xs) (n : Int)
      = xs.drop (xs.length - n)
  ∧ (∀ m : Int, m ≤ 0 → RingLog.latest (RingLog.addAll (RingLog.new n) xs) m = [])
  ∧ (∀ m : Nat, m < RingLog.size (RingLog.addAll (RingLog.new n) xs) →
      RingLog.latest (RingLog.addAll (RingLog.new n) xs) (m : Int)
        = xs.drop (xs.length - m)) := by
  have hall : RingLog.addAll (RingLog.new n) xs = ⟨n, lastN n xs⟩ := by
    have h := addAll_items xs n [] (by simp)
    simpa [RingLog.new] using h
  have hlen : (lastN n xs).length = n := by rw [lastN_length]; omega
  rw [hall]
  refine ⟨?_, ?_, ?_, ?_⟩
  · simpa [RingLog.size] using hlen
  · by_cases hn : n = 0
    · subst hn
      simp [RingLog.latest, List.drop_length]
    · have hpos : ¬ ((n : Int) ≤ 0) := by omega
      simp only [RingLog.latest, if_neg hpos, Int.toNat_natCast, hlen,
        Nat.sub_self, List.drop_zero]
      rfl
  · intro m hm
    simp [RingLog.latest, hm]
  · intro m hm
    simp only [RingLog.size, hlen] at hm
    by_cases hm0 : m = 0
    · subst hm0
      simp [RingLog.latest, List.drop_length]
    · have hpos : ¬ ((m : Int) ≤ 0) := by omega
      simp only [RingLog.latest, if_neg hpos, Int.toNat_natCast, hlen, lastN,
        List.drop_drop, List.length_drop]
      congr 1
      omega

/-- Witness for C7: capacity 2, three appended items. -/
theorem c7_witness :
    RingLog.size (RingLog.addAll (RingLog.new 2) [(5 : Nat), 6, 7]) = 2
  ∧ RingLog.latest (RingLog.addAll (RingLog.new 2) [(5 : Nat), 6, 7]) 2 = [6, 7]
  ∧ RingLog.latest (RingLog.addAll (RingLog.new 2) [(5 : Nat), 6, 7]) (-1) = []
  ∧ RingLog.latest (RingLog.addAll (RingLog.new 2) [(5 : Nat), 6, 7]) 1 = [7] := by
  have h := c7_ring_eviction 2 [(5 : Nat), 6, 7] (by norm_num)
  exact ⟨h.1, h.2.1.trans (by decide), h.2.2.1 (-1) (by decide),
    (h.2.2.2 1 (by decide)).trans (by decide)⟩

/-- Claim C10: `latest limit` for any `limit` at least the current size
returns every stored entry in insertion order (the model is pure, so the
log is unchanged). -/
theorem c10_latest_full {α : Type} (l : RingLog α) (limit : Int)
    (h : (RingLog.size l : Int) ≤ limit) :
    RingLog.latest l limit = l.items := by
  by_cases h0 : limit ≤ 0
  · have hz : l.items.length = 0 := by
      simp only [RingLog.size] at h; omega
    simp [RingLog.latest, h0, List.eq_nil_of_length_eq_zero hz]
  · have hz : l.items.length - limit.toNat = 0 := by
      simp only [RingLog.size] at h; omega
    simp [RingLog.latest, h0, hz]

/-- Witness for C10: the debug-endpoint maximum limit 1000 against the
default capacity 200 holding three entries. -/
theorem c10_witness :
    RingLog.latest (RingLog.addAll (RingLog.new 200) [(1 : Nat), 2, 3]) 1000
      = [1, 2, 3] :=
  (c10_latest_full (RingLog.addAll (RingLog.new 200) [(1 : Nat), 2, 3]) 1000
    (by decide)).trans (by decide)

/-- Claim C8: `close` never raises (the model returns the same result
whether or not the underlying close raises, the exception being swallowed),
closes the underlying connection when one is open, and is idempotent: a
second call, or a call with no open connection, performs no underlying
close — so in the teardown path the upstream connection is closed exactly
once even if `close` runs twice. -/
theorem c8_close_idempotent (ws : Option Unit) (b b2 : Bool) :
    sessionClose ws b = sessionClose ws b2
  ∧ (sessionClose ws b).1 = none
  ∧ (sessionClose ws b).2 = (if ws.isSome then 1 else 0)
  ∧ sessionClose (sessionClose ws b).1 b2 = (none, 0)
  ∧ (sessionClose ws b).2 + (sessionClose (sessionClose ws b).1 b2).2
      = (if ws.isSome then 1 else 0) := by
  cases ws <;> simp [sessionClose]

/-- Claim C4, counterexample: a frame that decodes to valid JSON which is
not an object (here the JSON array `[]`) is not the expected structured
form, yet `events` does not skip it — `data.get` raises `AttributeError`,
which terminates the event sequence even though the connection is open. -/
theorem c4_counterexample :
    processFrame (some (JValue.arr [])) = StepResult.raised
  ∧ StepResult.raised ≠ StepResult.skipped :=
  ⟨rfl, fun h => StepResult.noConfusion h⟩

/-- Claim C4 as amended: a frame on which `json.loads` raises is logged and
skipped and the sequence continues; every frame that decodes successfully
is never skipped — it either yields a classified event or raises
(terminating the sequence), so only undecodable frames are skipped. -/
theorem c4_decode_skip :
    processFrame none = StepResult.skipped
  ∧ ∀ v : JValue, processFrame (some v) = StepResult.raised
      ∨ ∃ e, processFrame (some v) = StepResult.yielded e := by
  refine ⟨rfl, ?_⟩
  intro v
  cases v with
  | obj fs =>
    simp only [processFrame]
    split
    · exact Or.inr ⟨_, rfl⟩
    · exact Or.inl rfl
  | null => exact Or.inl rfl
  | bool b => exact Or.inl rfl
  | num n => exact Or.inl rfl
  | str s => exact Or.inl rfl
  | arr es => exact Or.inl rfl

/-- Claim C5: the upstream-to-client pump drops an event with empty text
entirely (nothing sent, nothing logged); for non-empty text it sends
exactly one outward message, logged once in each text log, whose `type` is
`"final"` when `isFinal` holds and `"partial"` otherwise (also when
neither marker matched), and whose remaining fields copy the event. -/
theorem c5_forwarding (t1 t2 : ℚ) (e : TranscriptEvent) :
    (e.text = "" → pump_openai_step t1 t2 e = ⟨[], [], []⟩)
  ∧ (e.text ≠ "" →
      pump_openai_step t1 t2 e
        = ⟨[outwardPayload e], [(t1, outwardPayload e)], [(t2, outwardPayload e)]⟩)
  ∧ (outwardPayload e).ptype = (if e.isFinal then ("final") else ("partial"))
  ∧ (outwardPayload e).text = e.text
  ∧ (outwardPayload e).ts_start = e.start_s
  ∧ (outwardPayload e).ts_end = e.end_s
  ∧ (outwardPayload e).event = e.event_type := by
  refine ⟨?_, ?_, ?_, rfl, rfl, rfl, rfl⟩
  · intro h; simp [pump_openai_step, h]
  · intro h; simp [pump_openai_step, h]
  · cases hp : e.isPart <;> cases hf : e.isFinal <;>
      simp [outwardPayload, hp, hf]

/-- Witness for C5: a concrete final event with text is forwarded as one
`"final"` message; a concrete empty-text event is dropped. -/
theorem c5_witness :
    pump_openai_step 3 4
        { event_type := JValue.str ("x.done"), isPart := false, isFinal := true,
          text := "hej", start_s := JValue.null, end_s := JValue.null,
          raw := JValue.null }
      = ⟨[outwardPayload
            { event_type := JValue.str ("x.done"), isPart := false,
              isFinal := true, text := "hej", start_s := JValue.null,
              end_s := JValue.null, raw := JValue.null }],
         [(3, outwardPayload
            { event_type := JValue.str ("x.done"), isPart := false,
              isFinal := true, text := "hej", start_s := JValue.null,
              end_s := JValue.null, raw := JValue.null })],
         [(4, outwardPayload
            { event_type := JValue.str ("x.done"), isPart := false,
              isFinal := true, text := "hej", start_s := JValue.null,
              end_s := JValue.null, raw := JValue.null })]⟩
  ∧ (outwardPayload
        { event_type := JValue.str ("x.done"), isPart := false,
          isFinal := true, text := "hej", start_s := JValue.null,
          end_s := JValue.null, raw := JValue.null }).ptype = ("final")
  ∧ pump_openai_step 3 4
        { event_type := JValue.str ("x.delta"), isPart := true, isFinal := false,
          text := "", start_s := JValue.null, end_s := JValue.null,
          raw := JValue.null }
      = ⟨[], [], []⟩ := by
  refine ⟨?_, rfl, ?_⟩
  · exact (c5_forwarding 3 4
      { event_type := JValue.str ("x.done"), isPart := false, isFinal := true,
        text := "hej", start_s := JValue.null, end_s := JValue.null,
        raw := JValue.null }).2.1 (by simp)
  · exact (c5_forwarding 3 4
      { event_type := JValue.str ("x.delta"), isPart := true, isFinal := false,
        text := "", start_s := JValue.null, end_s := JValue.null,
        raw := JValue.null }).1 rfl

/-- Claim C6: a client text frame whose JSON has type `"reset"` invokes
`clear`, which zeroes the audio clock and sends exactly one
`input_audio_buffer.clear` upstream, so the next chunk starts at 0
regardless of the prior clock. -/
theorem c6_reset (sample_rate clock tnow : ℚ) (raw : List Nat)
    (fs : List (String × JValue))
    (h : (pyGet fs ("type")).getD JValue.null = JValue.str ("reset")) :
    pump_client_step sample_rate clock tnow (Frame.text (some (JValue.obj fs)))
      = ⟨0, [UpMsg.clear], [], []⟩
  ∧ sessionClear clock = (0, [UpMsg.clear])
  ∧ (send_audio_chunk sample_rate 0 raw).start_s = 0 := by
  refine ⟨?_, rfl, rfl⟩
  simp [pump_client_step, h, sessionClear]

/-- Witness for C6: a reset frame from clock 5 zeroes the clock and emits
one clear message. -/
theorem c6_witness :
    pump_client_step 16000 5 9
        (Frame.text (some (JValue.obj [(("type" : String), JValue.str ("reset"))])))
      = ⟨0, [UpMsg.clear], [], []⟩
  ∧ sessionClear 5 = (0, [UpMsg.clear])
  ∧ (send_audio_chunk 16000 0 [0, 0]).start_s = 0 :=
  c6_reset 16000 5 9 [0, 0] [(("type" : String), JValue.str ("reset"))] rfl

/-- Claim C9: in the client-to-upstream pump, a `"flush"` control frame is
accepted but does nothing (no upstream message, no clock change, no log
entry); a text frame that is not valid JSON, or whose type is neither
`"flush"` nor `"reset"` (including a non-object JSON payload, whose
`AttributeError` the pump's catch-all swallows), is silently ignored — the
pump function is total, so no text frame raises or terminates it. -/
theorem c9_control (sample_rate clock tnow : ℚ) (fs : List (String × JValue))
    (v : JValue) :
    ((pyGet fs ("type")).getD JValue.null = JValue.str ("flush") →
      pump_client_step sample_rate clock tnow (Frame.text (some (JValue.obj fs)))
        = ⟨clock, [], [], []⟩)
  ∧ pump_client_step sample_rate clock tnow (Frame.text none) = ⟨clock, [], [], []⟩
  ∧ ((pyGet fs ("type")).getD JValue.null ≠ JValue.str ("flush") →
     (pyGet fs ("type")).getD JValue.null ≠ JValue.str ("reset") →
      pump_client_step sample_rate clock tnow (Frame.text (some (JValue.obj fs)))
        = ⟨clock, [], [], []⟩)
  ∧ ((∀ gs : List (String × JValue), v ≠ JValue.obj gs) →
      pump_client_step sample_rate clock tnow (Frame.text (some v))
        = ⟨clock, [], [], []⟩) := by
  refine ⟨?_, rfl, ?_, ?_⟩
  · intro h
    simp [pump_client_step, h]
  · intro h1 h2
    cases hv : (pyGet fs ("type")).getD JValue.null with
    | str s =>
      rw [hv] at h1 h2
      have hs1 : s ≠ "flush" := fun hh => h1 (by rw [hh])
      have hs2 : s ≠ "reset" := fun hh => h2 (by rw [hh])
      simp [pump_client_step, hv, hs1, hs2]
    | null => simp [pump_client_step, hv]
    | bool b => simp [pump_client_step, hv]
    | num n => simp [pump_client_step, hv]
    | arr es => simp [pump_client_step, hv]
    | obj gs => simp [pump_client_step, hv]
  · intro h
    cases v with
    | obj gs => exact absurd rfl (h gs)
    | null => rfl
    | bool b => rfl
    | num n => rfl
    | str s => rfl
    | arr es => rfl

/-- Witness for C9: a flush frame, an undecodable frame, an unrecognized
command and a non-object payload are all no-ops from clock 7. -/
theorem c9_witness :
    pump_client_step 16000 7 9
        (Frame.text (some (JValue.obj [(("type" : String), JValue.str ("flush"))])))
      = ⟨7, [], [], []⟩
  ∧ pump_client_step 16000 7 9 (Frame.text none) = ⟨7, [], [], []⟩
  ∧ pump_client_step 16000 7 9
        (Frame.text (some (JValue.obj [(("type" : String), JValue.num 3)])))
      = ⟨7, [], [], []⟩
  ∧ pump_client_step 16000 7 9 (Frame.text (some (JValue.arr [JValue.num 1])))
      = ⟨7, [], [], []⟩ := by
  refine ⟨?_, ?_, ?_, ?_⟩
  · exact (c9_control 16000 7 9 [(("type" : String), JValue.str ("flush"))]
      JValue.null).1 rfl
  · exact (c9_control 16000 7 9 [] JValue.null).2.1
  · exact (c9_control 16000 7 9 [(("type" : String), JValue.num 3)]
      JValue.null).2.2.1
      (fun hh => JValue.noConfusion (show JValue.num 3 = JValue.str ("flush") from hh))
      (fun hh => JValue.noConfusion (show JValue.num 3 = JValue.str ("reset") from hh))
  · exact (c9_control 16000 7 9 [] (JValue.arr [JValue.num 1])).2.2.2
      (fun gs hh => JValue.noConfusion hh)

/-- Claim C2: for a raw message whose type tag is the string `t`, the
classified event has `isPart` true exactly when `t` contains `".delta"` or
`".partial"` and the final markers are absent, and `isFinal` true exactly
when `t` contains `".done"`, `".completed"` or `".final"`; finality wins
the tie-break, and no classified event (from any frame) ever has both
flags true. -/
theorem c2_classifier (fs : List (String × JValue)) (t : String)
    (e : TranscriptEvent)
    (ht : (pyGet fs ("type")).getD (JValue.str ("")) = JValue.str t)
    (he : processFrame (some (JValue.obj fs)) = StepResult.yielded e) :
    e.isPart = ((strContains t (".delta") || strContains t (".partial"))
        && !(strContains t (".done") || strContains t (".completed")
              || strContains t (".final")))
  ∧ e.isFinal = (strContains t (".done") || strContains t (".completed")
        || strContains t (".final"))
  ∧ (∀ (f : Option JValue) (e2 : TranscriptEvent),
      processFrame f = StepResult.yielded e2 →
      ¬(e2.isPart = true ∧ e2.isFinal = true)) := by
  have hexcl : ∀ (f : Option JValue) (e2 : TranscriptEvent),
      processFrame f = StepResult.yielded e2 →
      ¬(e2.isPart = true ∧ e2.isFinal = true) := by
    intro f e2 hf
    cases f with
    | none => exact absurd hf (fun hh => StepResult.noConfusion hh)
    | some v =>
      cases v with
      | obj gs =>
        simp only [processFrame] at hf
        split at hf
        · rcases StepResult.yielded.inj hf with rfl
          rintro ⟨ha, hb⟩
          dsimp only at ha hb
          rw [hb] at ha
          simp at ha
        · exact absurd hf (fun hh => StepResult.noConfusion hh)
      | null => exact absurd hf (fun hh => StepResult.noConfusion hh)
      | bool b => exact absurd hf (fun hh => StepResult.noConfusion hh)
      | num n => exact absurd hf (fun hh => StepResult.noConfusion hh)
      | str s => exact absurd hf (fun hh => StepResult.noConfusion hh)
      | arr es => exact absurd hf (fun hh => StepResult.noConfusion hh)
  refine ⟨?_, ?_, hexcl⟩ <;>
  · simp only [processFrame, ht, pyIn] at he
    cases hx : extract_text fs with
    | ok txt =>
      rw [hx] at he
      rcases StepResult.yielded.inj he with rfl
      rfl
    | error u =>
      rw [hx] at he
      exact absurd he (fun hh => StepResult.noConfusion hh)

/-- Witness for C2: the message `{"type": "a.delta"}` classifies as
partial, not final. -/
theorem c2_witness :
    TranscriptEvent.isPart
        { event_type := JValue.str ("a.delta"), isPart := true, isFinal := false,
          text := "", start_s := JValue.null, end_s := JValue.null,
          raw := JValue.obj [(("type" : String), JValue.str ("a.delta"))] }
      = ((strContains ("a.delta") (".delta") || strContains ("a.delta") (".partial"))
          && !(strContains ("a.delta") (".done")
                || strContains ("a.delta") (".completed")
                || strContains ("a.delta") (".final")))
  ∧ TranscriptEvent.isFinal
        { event_type := JValue.str ("a.delta"), isPart := true, isFinal := false,
          text := "", start_s := JValue.null, end_s := JValue.null,
          raw := JValue.obj [(("type" : String), JValue.str ("a.delta"))] }
      = (strContains ("a.delta") (".done") || strContains ("a.delta") (".completed")
          || strContains ("a.delta") (".final"))
  ∧ (∀ (f : Option JValue) (e2 : TranscriptEvent),
      processFrame f = StepResult.yielded e2 →
      ¬(e2.isPart = true ∧ e2.isFinal = true)) :=
  c2_classifier [(("type" : String), JValue.str ("a.delta"))] ("a.delta")
    { event_type := JValue.str ("a.delta"), isPart := true, isFinal := false,
      text := "", start_s := JValue.null, end_s := JValue.null,
      raw := JValue.obj [(("type" : String), JValue.str ("a.delta"))] }
    rfl rfl

/-- A match on a value returning it only when it is a non-empty string is
exactly `asNonemptyStr`. -/
theorem matchStr_eq_asNonemptyStr (v : JValue) :
    (match v with
     | JValue.str s => Except.ok (ε := Unit) (if s.isEmpty then (none : Option String) else some s)
     | _ => Except.ok none)
    = Except.ok (asNonemptyStr v) := by
  cases v <;> rfl

/-- The Python `or`-chain `v1 or v2 or v3` and the first truthy value of
`[v1, v2, v3]` agree once filtered to a non-empty string: a falsy final
value can only differ from `null` in ways `asNonemptyStr` ignores. -/
theorem orChain_asNonemptyStr (v1 v2 v3 : JValue) :
    asNonemptyStr (if truthy v1 then v1 else if truthy v2 then v2 else v3)
      = asNonemptyStr (firstTruthy [v1, v2, v3]) := by
  by_cases h1 : truthy v1
  · simp [firstTruthy, h1]
  · by_cases h2 : truthy v2
    · simp [firstTruthy, h1, h2]
    · by_cases h3 : truthy v3
      · simp [firstTruthy, h1, h2, h3]
      · simp only [firstTruthy, if_neg h1, if_neg h2, if_neg h3]
        cases v3 with
        | str s =>
          have hs : s.isEmpty := by simpa [truthy] using h3
          simp [asNonemptyStr, hs]
        | null => rfl
        | bool b => rfl
        | num n => rfl
        | arr es => rfl
        | obj gs => rfl

/-- Claim C3, counterexample: on
`{"transcription": 42, "response": {"output_text": "yo"}}` the claimed
priority chain (first non-empty string among the seven fields) yields
`"yo"`, but `extract_text` stops at the truthy non-string `42` in the
`or`-chain, fails the string check, and the display text is `""`. -/
theorem c3_counterexample :
    extract_text [(("transcription" : String), JValue.num 42),
        (("response" : String), JValue.obj [(("output_text" : String), JValue.str ("yo"))])]
      = Except.ok none
  ∧ extractTextSpec [(("transcription" : String), JValue.num 42),
        (("response" : String), JValue.obj [(("output_text" : String), JValue.str ("yo"))])]
      = "yo"
  ∧ displayText [(("transcription" : String), JValue.num 42),
        (("response" : String), JValue.obj [(("output_text" : String), JValue.str ("yo"))])]
      ≠ some (extractTextSpec [(("transcription" : String), JValue.num 42),
        (("response" : String), JValue.obj [(("output_text" : String), JValue.str ("yo"))])]) :=
  ⟨rfl, rfl, by decide⟩

/-- Claim C3 as amended: the extracted display text is the first non-empty
string among the four top-level fields in order; if none matches, the
fallback takes the first Python-truthy value among nested
`audio.transcript`, top-level `transcription` and nested
`response.output_text` (a truthy non-dict `audio` raises), keeping it only
when it is a non-empty string, else the text is empty.  The claim's two
examples hold. -/
theorem c3_extraction_amended :
    (∀ d : List (String × JValue), extract_text d = extractTextAmended d)
  ∧ displayText [(("transcript_delta" : String), JValue.str ("he"))] = some ("he")
  ∧ displayText [(("text" : String), JValue.str ("")),
      (("transcript" : String), JValue.str ("hej"))] = some ("hej") := by
  refine ⟨?_, rfl, rfl⟩
  intro d
  unfold extract_text extractTextAmended audioObj
  cases hfk : firstKey d [("text"), ("text_delta"), ("transcript"), ("transcript_delta")] with
  | some s => simp only [hfk]
  | none =>
    simp only [hfk]
    by_cases ha : truthy ((pyGet d ("audio")).getD JValue.null)
    · cases hav : (pyGet d ("audio")).getD JValue.null with
      | obj afs =>
        rw [hav] at ha
        simp only [hav, if_pos ha, matchStr_eq_asNonemptyStr, orChain_asNonemptyStr]
      | null => rw [hav] at ha; exact absurd ha (by simp [truthy])
      | bool b => rw [hav] at ha; simp only [hav, if_pos ha]
      | num n => rw [hav] at ha; simp only [hav, if_pos ha]
      | str s => rw [hav] at ha; simp only [hav, if_pos ha]
      | arr es => rw [hav] at ha; simp only [hav, if_pos ha]
    · simp only [if_neg ha, matchStr_eq_asNonemptyStr, orChain_asNonemptyStr]
